import Mathlib

/-!
Verification development for the qcow2 library (Go): a shallow embedding of
the image read/write core (src/qcow2.go, src/cluster.go, src/table.go,
src/types.go, src/util.go, the refcount engine and header reader), together
with theorems settling the specification claims.

Conventions of the embedding:
* the backing host file is a total byte map (Int offset to byte value) plus an
  explicit end-of-file size; positioned writes go through stWrite, which also
  records a trace event, so that ordering and I/O-shape claims are statable;
* Go int64 arithmetic is modelled with Int using truncated division
  (Int.tdiv / Int.tmod), matching Go division semantics; uint64 words are
  modelled as Nat (all constructors mask their operands below 2 to the 64);
* the DEFLATE decompressor is an external collaborator and is not modelled:
  reading a compressed cluster yields the failure outcome;
* the LRU table cache of src/table.go is semantically transparent (writeTable
  writes through and invalidates), so readTable reads the file directly;
* Go slice indexing into decoded tables is modelled with getD (default 0);
  every execution considered here indexes within bounds, where the two agree.
-/

set_option maxRecDepth 100000
set_option maxHeartbeats 2000000

namespace Qcow2

/-- Big-endian decoding of a byte list, as binary.BigEndian.Uint64 does for an
8-byte slice. -/
def beU64 (bs : List Nat) : Nat :=
  bs.foldl (fun a b => a * 256 + b) 0

/-- Big-endian encoding of a 64-bit word into 8 bytes, as
binary.BigEndian.PutUint64. -/
def encodeU64 (v : Nat) : List Nat :=
  [v / 2 ^ 56 % 256, v / 2 ^ 48 % 256, v / 2 ^ 40 % 256, v / 2 ^ 32 % 256,
   v / 2 ^ 24 % 256, v / 2 ^ 16 % 256, v / 2 ^ 8 % 256, v % 256]

/-- The backing host file: byte contents and current end-of-file offset. -/
structure File where
  data : Int → Nat
  size : Int

/-- Trace events recorded by the embedding: raw positioned writes to the host
file, plus tags for the three metadata operations of the cluster writer
(cluster allocation, refcount update, L2 update). -/
inductive Ev where
  | hostWrite (off len : Int)
  | alloc (off : Int)
  | setRef (diskOffset : Int) (value : Nat)
  | updL2 (imageOffset diskOffset : Int)
deriving DecidableEq

/-- Mutable state threaded through the write path: the host file and the
event trace. -/
structure St where
  file : File
  trace : List Ev

/-- A positioned write of a byte buffer (offsetWriter.Write forwarding to
f.WriteAt in src/util.go); extends the file when writing at or past EOF and
records a hostWrite event. -/
def stWrite (s : St) (off : Int) (bs : List Nat) : St :=
  { file := { data := fun i => if off ≤ i ∧ i < off + bs.length
                               then bs.getD (i - off).toNat 0
                               else s.file.data i,
              size := max s.file.size (off + bs.length) },
    trace := s.trace ++ [.hostWrite off bs.length] }

/-- A positioned read of n bytes (offsetReader.Read forwarding to f.ReadAt in
src/util.go). In-scope executions stay within EOF, so the short-read case of
f.ReadAt does not arise. -/
def readBytes (f : File) (off : Int) (n : Nat) : List Nat :=
  (List.range n).map (fun k => f.data (off + k))

/-- Image header fields (src/types.go Header), each a big-endian unsigned
field on disk; runtime code receives them via HeaderAndAdditionalFields and
uses the embedded Header. -/
structure Header where
  magic : Nat := 0
  version : Nat := 0
  backingFileOffset : Nat := 0
  backingFileSize : Nat := 0
  clusterBits : Nat := 0
  size : Nat := 0
  cryptMethod : Nat := 0
  l1Size : Nat := 0
  l1TableOffset : Nat := 0
  refcountTableOffset : Nat := 0
  refcountTableClusters : Nat := 0
  nbSnapshots : Nat := 0
  snapshotsOffset : Nat := 0
  incompatibleFeatures : Nat := 0
  compatibleFeatures : Nat := 0
  autoclearFeatures : Nat := 0
  refcountOrder : Nat := 0
  headerLength : Nat := 0
deriving DecidableEq

/-- L1 table entries are 64-bit words (src/types.go L1TableEntry). -/
abbrev L1TableEntry := Nat

/-- L2 table entries are 64-bit words (src/types.go L2TableEntry). -/
abbrev L2TableEntry := Nat

/-- src/types.go NewL1TableEntry: bit 63 set, offset masked to bits 9..56. -/
def NewL1TableEntry (offset : Int) : L1TableEntry :=
  2 ^ 63 ||| (offset.toNat &&& ((2 ^ 48 - 1) <<< 9))

/-- src/types.go L1TableEntry.Offset: bits 9..56. -/
def L1TableEntry.Offset (e : L1TableEntry) : Int :=
  ((e &&& ((2 ^ 48 - 1) <<< 9) : Nat) : Int)

/-- src/types.go L2TableEntry.Used: bit 63. -/
def L2TableEntry.Used (e : L2TableEntry) : Bool :=
  e &&& 2 ^ 63 != 0

/-- src/types.go L2TableEntry.Compressed: bit 62. -/
def L2TableEntry.Compressed (e : L2TableEntry) : Bool :=
  e &&& 2 ^ 62 != 0

/-- src/types.go NewL2TableEntry. -/
def NewL2TableEntry (hdr : Header) (offset : Int) (compressed : Bool)
    (compressedSize : Int) : L2TableEntry :=
  let e : Nat := 2 ^ 63
  if compressed then
    let hostClusterBits := 62 - (hdr.clusterBits - 8)
    let additionalSectors := compressedSize.tdiv 512
    e ||| 2 ^ 62 ||| (additionalSectors.toNat <<< hostClusterBits) |||
      (offset.toNat &&& (2 ^ hostClusterBits - 1))
  else
    e ||| (offset.toNat &&& ((2 ^ 48 - 1) <<< 9))

/-- src/types.go L2TableEntry.Offset: low bits for compressed entries,
bits 9..56 otherwise. -/
def L2TableEntry.Offset (hdr : Header) (e : L2TableEntry) : Int :=
  if e.Compressed then
    let hostClusterBits := 62 - (hdr.clusterBits - 8)
    ((e &&& (2 ^ hostClusterBits - 1) : Nat) : Int)
  else
    ((e &&& ((2 ^ 48 - 1) <<< 9) : Nat) : Int)

/-- src/types.go L2TableEntry.CompressedSize. -/
def L2TableEntry.CompressedSize (hdr : Header) (e : L2TableEntry) : Int :=
  let hostClusterBits := 62 - (hdr.clusterBits - 8)
  let additionalSectors : Nat := (e >>> hostClusterBits) &&& (2 ^ (61 - hostClusterBits + 1) - 1)
  ((additionalSectors : Int) + 1) * 512

/-- Table read (src/table.go tableLoader behind readTable): a positioned read
of 8n bytes decoded as big-endian 64-bit words. The LRU cache is semantically
transparent because writeTable writes through and invalidates, so the
embedding reads the file directly. -/
def readTable (f : File) (imageOffset : Int) (n : Nat) : List Nat :=
  let buf := readBytes f imageOffset (8 * n)
  (List.range n).map (fun i => beU64 ((buf.drop (8 * i)).take 8))

/-- Table write (src/table.go writeTable): entries encoded back-to-back
big-endian and positionally written. -/
def writeTable (s : St) (imageOffset : Int) (t : List Nat) : St :=
  stWrite s imageOffset (t.foldr (fun v acc => encodeU64 v ++ acc) [])

/-- Refcount engine (src/unnamed/part_004 diskToRefcountOffset): maps a disk
offset to the host-file position of its cluster refcount. The refcount table
entry is masked with AND-NOT 511 to its host-offset field. -/
def diskToRefcountOffset (f : File) (hdr : Header) (diskOffset : Int) : Int :=
  let refcountBits : Int := ((2 ^ hdr.refcountOrder : Nat) : Int)
  let clusterSize : Int := ((2 ^ hdr.clusterBits : Nat) : Int)
  let refcountBlockEntries := (clusterSize * 8).tdiv refcountBits
  let refcountBlockIndex := (diskOffset.tdiv clusterSize).tmod refcountBlockEntries
  let refcountTableIndex := (diskOffset.tdiv clusterSize).tdiv refcountBlockEntries
  let refCountTableEntries := ((hdr.refcountTableClusters : Int) * clusterSize).tdiv 8
  let refCountTable := readTable f (hdr.refcountTableOffset : Int) refCountTableEntries.toNat
  let refcountBlockOffset : Int :=
    ((refCountTable.getD refcountTableIndex.toNat 0 / 2 ^ 9 * 2 ^ 9 : Nat) : Int)
  refcountBlockOffset + refcountBlockIndex * refcountBits

/-- src/unnamed/part_004 readBits: load ceil(nBits / 8) bytes and extract the
big-endian bit field. -/
def readBits (f : File) (imageOffset : Int) (nBits : Nat) : Nat :=
  let nBytes := (nBits + 7) / 8
  let buf := readBytes f imageOffset nBytes
  (List.range nBits).foldl
    (fun bits bitIdx =>
      bits * 2 + (if buf.getD (bitIdx / 8) 0 &&& 2 ^ (7 - bitIdx % 8) != 0 then 1 else 0))
    0

/-- src/unnamed/part_004 writeBits: build a fresh zero buffer of
ceil(nBits / 8) bytes holding the big-endian bit field and positionally write
it. -/
def writeBits (s : St) (imageOffset : Int) (nBits : Nat) (value : Nat) : St :=
  let nBytes := (nBits + 7) / 8
  let buf :=
    (List.range nBits).foldl
      (fun buf bitIdx =>
        if value &&& 2 ^ (nBits - 1 - bitIdx) != 0 then
          buf.set (bitIdx / 8) (buf.getD (bitIdx / 8) 0 ||| 2 ^ (7 - bitIdx % 8))
        else buf)
      (List.replicate nBytes 0)
  stWrite s imageOffset buf

/-- src/unnamed/part_004 getRefcount. -/
def getRefcount (f : File) (hdr : Header) (diskOffset : Int) : Nat :=
  readBits f (diskToRefcountOffset f hdr diskOffset) (2 ^ hdr.refcountOrder)

/-- src/unnamed/part_004 setRefcount; the embedding additionally records a
setRef trace tag after the underlying write. -/
def setRefcount (s : St) (hdr : Header) (diskOffset : Int) (refcount : Nat) : St :=
  let s1 := writeBits s (diskToRefcountOffset s.file hdr diskOffset)
              (2 ^ hdr.refcountOrder) refcount
  { s1 with trace := s1.trace ++ [.setRef diskOffset refcount] }

/-- The lazy byte stream returned by clusterReader: a zero-filled hole, a
DEFLATE stream over a bounded slice of the file, or a bounded positioned
reader over the file. -/
inductive ClusterStream where
  | hole (rem : Int)
  | compressed (off csize skip rem : Int)
  | data (off rem : Int)
deriving DecidableEq

/-- src/cluster.go clusterReader: translate the disk offset through L1 and L2
and classify the entry. -/
def clusterReader (f : File) (hdr : Header) (diskOffset : Int) : ClusterStream :=
  let clusterSize : Int := ((2 ^ hdr.clusterBits : Nat) : Int)
  let bytesRemainingInCluster := clusterSize - diskOffset.tmod clusterSize
  let l2Entries := clusterSize.tdiv 8
  let l2Index := (diskOffset.tdiv clusterSize).tmod l2Entries
  let l1Index := (diskOffset.tdiv clusterSize).tdiv l2Entries
  let l1Table := readTable f (hdr.l1TableOffset : Int) hdr.l1Size
  let l1Entry : L1TableEntry := l1Table.getD l1Index.toNat 0
  let l2TableOffset := l1Entry.Offset
  let l2Table := readTable f l2TableOffset l2Entries.toNat
  let l2Entry : L2TableEntry := l2Table.getD l2Index.toNat 0
  if l2Entry = 0 ∨ (¬ l2Entry.Compressed ∧ l2Entry &&& 1 = 1) then
    .hole bytesRemainingInCluster
  else if l2Entry.Compressed then
    .compressed (L2TableEntry.Offset hdr l2Entry) (L2TableEntry.CompressedSize hdr l2Entry)
      (diskOffset.tmod clusterSize) bytesRemainingInCluster
  else
    .data (L2TableEntry.Offset hdr l2Entry + diskOffset.tmod clusterSize)
      bytesRemainingInCluster

/-- One Read call of a buffer of length m against a cluster stream. The
compressed case needs the external DEFLATE decoder and is not modelled. -/
def streamRead (f : File) (st : ClusterStream) (m : Int) : Option (List Nat) :=
  match st with
  | .hole rem => some (List.replicate (min m rem).toNat 0)
  | .data off rem => some (readBytes f off (min m rem).toNat)
  | .compressed _ _ _ _ => none

/-- src/cluster.go allocateCluster: seek to EOF, append a zero-filled
cluster, return the previous EOF; the embedding records an alloc tag at the
seek. -/
def allocateCluster (s : St) (hdr : Header) : Int × St :=
  let imageOffset := s.file.size
  let s1 : St := { s with trace := s.trace ++ [.alloc imageOffset] }
  let clusterSize : Int := ((2 ^ hdr.clusterBits : Nat) : Int)
  (imageOffset, stWrite s1 imageOffset (List.replicate clusterSize.toNat 0))

/-- src/cluster.go diskToImageOffset: translate through L1 and L2 and add the
intra-cluster remainder. -/
def diskToImageOffset (f : File) (hdr : Header) (diskOffset : Int) : Int :=
  let clusterSize : Int := ((2 ^ hdr.clusterBits : Nat) : Int)
  let l2Entries := clusterSize.tdiv 8
  let l2Index := (diskOffset.tdiv clusterSize).tmod l2Entries
  let l1Index := (diskOffset.tdiv clusterSize).tdiv l2Entries
  let l1Table := readTable f (hdr.l1TableOffset : Int) hdr.l1Size
  let l1Entry : L1TableEntry := l1Table.getD l1Index.toNat 0
  let l2Table := readTable f l1Entry.Offset l2Entries.toNat
  let l2Entry : L2TableEntry := l2Table.getD l2Index.toNat 0
  L2TableEntry.Offset hdr l2Entry + diskOffset.tmod clusterSize

/-- src/cluster.go alignToClusterBoundary, exactly as written in the source:
clusterSize minus the offset remainder. -/
def alignToClusterBoundary (hdr : Header) (imageOffset : Int) : Int :=
  let clusterSize : Int := ((2 ^ hdr.clusterBits : Nat) : Int)
  clusterSize - imageOffset.tmod clusterSize

/-- src/cluster.go copyCluster: allocate a new cluster and copy a
cluster-sized region read from alignToClusterBoundary of the current image
offset; returns newImageOffset plus the image-offset remainder. -/
def copyCluster (s : St) (hdr : Header) (diskOffset : Int) : Int × St :=
  let imageOffset := diskToImageOffset s.file hdr diskOffset
  let p := allocateCluster s hdr
  let newImageOffset := p.1
  let s1 := p.2
  let clusterSize : Int := ((2 ^ hdr.clusterBits : Nat) : Int)
  let s2 := stWrite s1 newImageOffset
              (readBytes s1.file (alignToClusterBoundary hdr imageOffset) clusterSize.toNat)
  (newImageOffset + imageOffset.tmod clusterSize, s2)

/-- src/cluster.go storeImageToDiskOffset: set the L2 entry for the disk
offset to a standard entry pointing at imageOffset and write the table back;
the embedding additionally records an updL2 trace tag. -/
def storeImageToDiskOffset (s : St) (hdr : Header) (imageOffset diskOffset : Int) : St :=
  let clusterSize : Int := ((2 ^ hdr.clusterBits : Nat) : Int)
  let l2Entries := clusterSize.tdiv 8
  let l2Index := (diskOffset.tdiv clusterSize).tmod l2Entries
  let l1Index := (diskOffset.tdiv clusterSize).tdiv l2Entries
  let l1Table := readTable s.file (hdr.l1TableOffset : Int) hdr.l1Size
  let l1Entry : L1TableEntry := l1Table.getD l1Index.toNat 0
  let l2Table := readTable s.file l1Entry.Offset l2Entries.toNat
  let l2Table2 := l2Table.set l2Index.toNat (NewL2TableEntry hdr imageOffset false 0)
  let s1 := writeTable s l1Entry.Offset l2Table2
  { s1 with trace := s1.trace ++ [.updL2 imageOffset diskOffset] }

/-- src/cluster.go clusterWriter: returns the image offset the write target
(an unbounded offsetWriter in the source) starts at, together with the state
after the metadata updates. -/
def clusterWriter (s : St) (hdr : Header) (diskOffset : Int) : Int × St :=
  let refcount := getRefcount s.file hdr diskOffset
  if refcount = 0 then
    let p := allocateCluster s hdr
    let imageOffset := p.1
    let s1 := p.2
    let s2 := setRefcount s1 hdr diskOffset 1
    let s3 := storeImageToDiskOffset s2 hdr imageOffset diskOffset
    (imageOffset, s3)
  else if refcount = 1 then
    (diskToImageOffset s.file hdr diskOffset, s)
  else
    let p := copyCluster s hdr diskOffset
    let imageOffset := p.1
    let s1 := p.2
    let s2 := setRefcount s1 hdr diskOffset 1
    let s3 := storeImageToDiskOffset s2 hdr imageOffset diskOffset
    (imageOffset, s3)

/-- The error results surfaced by the image facade: nil, io.EOF and
io.ErrUnexpectedEOF. -/
inductive IOErr where
  | noErr
  | eof
  | unexpectedEof
deriving DecidableEq

/-- Outcome of Image.ReadAt: a Go runtime panic (negative slice bound), an
inner failure (the unmodelled DEFLATE path, carrying the partial count
n - remaining), or a count, error value and the bytes read. -/
inductive ReadResult where
  | panicked
  | failed (n : Int)
  | ok (n : Int) (err : IOErr) (out : List Nat)
deriving DecidableEq

/-- Outcome of Image.WriteAt: count, error value and resulting state. -/
structure WriteResult where
  n : Int
  err : IOErr
  s : St

/-- The per-cluster loop of src/qcow2.go Image.ReadAt. The fuel is the
initial remaining count; each iteration consumes at least one byte, so fuel
never runs out on the in-scope executions (the fuel-exhausted arm mirrors
the inner-failure return). -/
def readAtLoop (f : File) (hdr : Header) :
    Nat → Int → Int → Int → List Nat → IOErr → ReadResult
  | 0, _, n, remaining, acc, err =>
      if remaining ≤ 0 then .ok n err acc else .failed (n - remaining)
  | fuel + 1, diskOffset, n, remaining, acc, err =>
      if remaining ≤ 0 then .ok n err acc
      else
        let r := clusterReader f hdr diskOffset
        let clusterSize : Int := ((2 ^ hdr.clusterBits : Nat) : Int)
        match streamRead f r (min clusterSize remaining) with
        | none => .failed (n - remaining)
        | some out =>
            let bytesInCluster : Int := out.length
            readAtLoop f hdr fuel (diskOffset + bytesInCluster) n
              (remaining - bytesInCluster) (acc ++ out) err

/-- src/qcow2.go Image.ReadAt: n is initialized to len(p); an empty buffer
returns immediately; a buffer extending past the disk size is clipped to
size - diskOffset (a negative clip value makes the Go slice expression
p[:n] panic) with err set to io.EOF; then the loop transfers one cluster
per iteration. -/
def ReadAt (f : File) (hdr : Header) (p : List Nat) (diskOffset : Int) : ReadResult :=
  let n : Int := p.length
  if n = 0 then .ok 0 .noErr []
  else if diskOffset + n > (hdr.size : Int) then
    let n2 := (hdr.size : Int) - diskOffset
    if n2 < 0 then .panicked
    else readAtLoop f hdr n2.toNat diskOffset n2 n2 [] .eof
  else readAtLoop f hdr n.toNat diskOffset n n [] .noErr

/-- The per-cluster loop of src/qcow2.go Image.WriteAt: each iteration gets a
cluster writer and hands it the next min(clusterSize, remaining) bytes (the
returned offsetWriter is unbounded and accepts the whole chunk). -/
def writeAtLoop (hdr : Header) :
    Nat → St → List Nat → Int → Int → Int → WriteResult
  | 0, s, _, _, n, remaining => ⟨n - remaining, .noErr, s⟩
  | fuel + 1, s, p, diskOffset, n, remaining =>
      if remaining ≤ 0 then ⟨n, .noErr, s⟩
      else
        let q := clusterWriter s hdr diskOffset
        let imageOffset := q.1
        let s1 := q.2
        let clusterSize : Int := ((2 ^ hdr.clusterBits : Nat) : Int)
        let chunk := p.take (min clusterSize remaining).toNat
        let s2 := stWrite s1 imageOffset chunk
        let bytesInCluster : Int := chunk.length
        writeAtLoop hdr fuel s2 (p.drop chunk.length) (diskOffset + bytesInCluster) n
          (remaining - bytesInCluster)

/-- src/qcow2.go Image.WriteAt: n is initialized to len(p); an empty buffer
returns immediately; a buffer extending past the disk size returns the
(unchanged) named count n together with io.ErrUnexpectedEOF before any
transfer; otherwise the loop writes one chunk per cluster writer. -/
def WriteAt (s : St) (hdr : Header) (p : List Nat) (diskOffset : Int) : WriteResult :=
  let n : Int := p.length
  if n = 0 then ⟨0, .noErr, s⟩
  else if diskOffset + n > (hdr.size : Int) then ⟨n, .unexpectedEof, s⟩
  else writeAtLoop hdr p.length s p diskOffset n n

/-! ### Auxiliary definitions for the claims -/

/-- The extracted L2 entry for a disk offset: the same L1 to L2 lookup the
cluster engine performs, exposed as a standalone definition so that claims
about the classification of entries can be stated against it. -/
def l2EntryAt (f : File) (hdr : Header) (diskOffset : Int) : L2TableEntry :=
  let clusterSize : Int := ((2 ^ hdr.clusterBits : Nat) : Int)
  let l2Entries := clusterSize.tdiv 8
  let l2Index := (diskOffset.tdiv clusterSize).tmod l2Entries
  let l1Index := (diskOffset.tdiv clusterSize).tdiv l2Entries
  let l1Table := readTable f (hdr.l1TableOffset : Int) hdr.l1Size
  let l1Entry : L1TableEntry := l1Table.getD l1Index.toNat 0
  let l2Table := readTable f l1Entry.Offset l2Entries.toNat
  l2Table.getD l2Index.toNat 0

/-- Does a cluster stream come from the zero-filled hole branch? -/
def isHole : ClusterStream → Bool
  | .hole _ => true
  | _ => false

/-- The three tagged metadata operations of the cluster writer. -/
inductive MetaTag where
  | alloc
  | setRef
  | updL2
deriving DecidableEq

/-- Project a trace event to its metadata tag, dropping raw host writes. -/
def Ev.metaTag : Ev → Option MetaTag
  | .alloc _ => some .alloc
  | .setRef _ _ => some .setRef
  | .updL2 _ _ => some .updL2
  | .hostWrite _ _ => none

/-- The sequence of metadata operations recorded in a trace. -/
def metaTags (tr : List Ev) : List MetaTag :=
  tr.filterMap Ev.metaTag

/-- Does a positioned host write of len bytes starting at off cross a
boundary between two host clusters of size cs? -/
def crossesClusterBoundary (cs off len : Int) : Bool :=
  off.tdiv cs != (off + len - 1).tdiv cs

/-- Modelled from the spec: an L2 entry is unallocated exactly when the
entry word is 0 or, equivalently, when the entry is not compressed and its
host offset field is 0. Stated for comparison with the classification the
clusterReader source performs. -/
def specUnallocatedL2 (hdr : Header) (e : L2TableEntry) : Bool :=
  e == 0 || (!e.Compressed && L2TableEntry.Offset hdr e == 0)

/-- Modelled from the spec: the refcount of cluster number c lives at bit
address block_offset * 8 + block_index * refcount_width, so the byte
position of the field is block_offset + block_index * refcount_width / 8.
Stated for comparison with diskToRefcountOffset. -/
def specRefcountBytePos (blockOffset blockIndex refcountWidth : Int) : Int :=
  blockOffset + (blockIndex * refcountWidth).tdiv 8

/-! ### Concrete images for the executable scenarios

All concrete scenarios use a 512-byte cluster size (clusterBits = 9, the
QCOW2 minimum; Image.Open accepts any cluster size from the header) and
16-bit refcounts (refcountOrder = 4), with the same host layout the create
path produces: cluster 0 header, cluster 1 the L1 table, cluster 2 the L2
table, cluster 3 the refcount table, cluster 4 the refcount block, data
clusters from 2560 up. -/

/-- Apply a byte patch to a byte map. -/
def patchBytes (base : Int → Nat) (off : Int) (bs : List Nat) : Int → Nat :=
  fun i => if off ≤ i ∧ i < off + bs.length then bs.getD (i - off).toNat 0 else base i

/-- Header of the small test images: 1 KiB disk, 512-byte clusters, one L1
entry, one refcount table cluster, 16-bit refcounts. -/
def hdrSmall : Header :=
  { clusterBits := 9, size := 1024, l1Size := 1, l1TableOffset := 512,
    refcountTableOffset := 1536, refcountTableClusters := 1, refcountOrder := 4 }

/-- A freshly created image for hdrSmall: L1 entry pointing at the (zeroed)
L2 table, refcount table entry pointing at the (zeroed) refcount block, no
data clusters, end of file at 2560. -/
def fileFresh : File :=
  { data := patchBytes (patchBytes (fun _ => 0)
      512 (encodeU64 (NewL1TableEntry 1024)))
      1536 (encodeU64 2048),
    size := 2560 }

/-- Fresh image state with an empty trace. -/
def stFresh : St := ⟨fileFresh, []⟩

/-- An image for hdrSmall in which both guest clusters are allocated
(standard L2 entries at host offsets 2560 and 3072) and have refcount 1 at
the positions the refcount engine uses; end of file at 3584. -/
def fileCow : File :=
  { data := patchBytes (patchBytes (patchBytes (patchBytes (fun _ => 0)
      512 (encodeU64 (NewL1TableEntry 1024)))
      1024 (encodeU64 (NewL2TableEntry hdrSmall 2560 false 0) ++
            encodeU64 (NewL2TableEntry hdrSmall 3072 false 0)))
      1536 (encodeU64 2048))
      2048 ([0, 1] ++ List.replicate 14 0 ++ [0, 1]),
    size := 3584 }

/-- Allocated-clusters image state with an empty trace. -/
def stCow : St := ⟨fileCow, []⟩

/-- An image for hdrSmall in which guest cluster 0 is allocated at host
offset 2560 with refcount 2 (as after a snapshot) and the old data cluster
holds the byte 171 throughout; end of file at 3072. -/
def fileSnap : File :=
  { data := patchBytes (patchBytes (patchBytes (patchBytes (patchBytes (fun _ => 0)
      512 (encodeU64 (NewL1TableEntry 1024)))
      1024 (encodeU64 (NewL2TableEntry hdrSmall 2560 false 0)))
      1536 (encodeU64 2048))
      2048 [0, 2])
      2560 (List.replicate 512 171),
    size := 3072 }

/-- Snapshot image state with an empty trace. -/
def stSnap : St := ⟨fileSnap, []⟩

/-- An image for hdrSmall whose L2 entry for guest cluster 0 is the word
2 to the 63: used (bit 63 set), not compressed, host offset field 0. -/
def fileHole : File :=
  { data := patchBytes (patchBytes (fun _ => 0)
      512 (encodeU64 (NewL1TableEntry 1024)))
      1024 (encodeU64 (2 ^ 63)),
    size := 2560 }

/-! ### Header reading (src/header.go readHeader)

The header reader consumes the file sequentially from offset 0 via
binary.Read in big-endian byte order; the embedding parses the same byte
stream as a list of bytes. -/

/-- Magic bytes for the QCOW2 file format (src/types.go). -/
def Magic : Nat := 0x514649FB

/-- Backing file format name extension type (src/types.go). -/
def BackingFileFormatName : Nat := 0xe2792aca

/-- Feature name table extension type (src/types.go). -/
def FeatureNameTable : Nat := 0x6803f857

/-- Bitmaps extension type (src/types.go). -/
def BitmapsExtension : Nat := 0x23852875

/-- Full disk encryption header extension type (src/types.go). -/
def FullDiskEncryptionHeader : Nat := 0x0537be77

/-- External data file name extension type (src/types.go). -/
def ExternalDataFileName : Nat := 0x44415441

/-- Version 3 additional header fields (src/types.go
HeaderAdditionalFields); the seven padding bytes are consumed by the parser
but not stored. -/
structure HeaderAdditionalFields where
  compressionType : Nat
deriving DecidableEq

/-- A header extension (src/types.go HeaderExtension); the wire length field
always equals the length of the data. -/
structure HeaderExtension where
  type : Nat
  data : List Nat
deriving DecidableEq

/-- src/types.go HeaderAndAdditionalFields. -/
structure HeaderAndAdditionalFields where
  header : Header
  additionalFields : Option HeaderAdditionalFields
  extensions : List HeaderExtension
deriving DecidableEq

/-- The distinct error returns of readHeader: ioFailure stands for a failed
binary.Read or io.ReadFull (truncated input, an I/O failure); every other
constructor is one of the invalid-image rejections. -/
inductive HdrErr where
  | ioFailure
  | badMagic
  | badVersion
  | backingFile
  | encryption
  | incompatible
  | compression
  | blockingExtension
deriving DecidableEq

/-- Is a readHeader error one of the invalid-image rejections (as opposed to
a propagated I/O failure)? -/
def isInvalidImage : HdrErr → Bool
  | .ioFailure => false
  | _ => true

/-- Read a w-byte big-endian unsigned field from the front of the stream, as
binary.Read does for a single field. -/
def readBE (w : Nat) (bs : List Nat) : Option (Nat × List Nat) :=
  if w ≤ bs.length then some (beU64 (bs.take w), bs.drop w) else none

/-- Big-endian encoding of a 32-bit word into 4 bytes. -/
def encodeU32 (v : Nat) : List Nat :=
  [v / 2 ^ 24 % 256, v / 2 ^ 16 % 256, v / 2 ^ 8 % 256, v % 256]

/-- Sequentially read a list of big-endian fields of the given widths, as
one binary.Read of a struct does field by field. -/
def readFields : List Nat → List Nat → Option (List Nat × List Nat)
  | [], bs => some ([], bs)
  | w :: ws, bs =>
    match readBE w bs with
    | none => none
    | some (v, bs1) =>
      match readFields ws bs1 with
      | none => none
      | some (vs, rest) => some (v :: vs, rest)

/-- The field widths of the fixed Header struct (src/types.go Header), 104
bytes in total. -/
def headerFieldWidths : List Nat := [4, 4, 8, 4, 4, 8, 4, 4, 8, 8, 4, 4, 8, 8, 8, 8, 4, 4]

/-- binary.Read of the fixed Header struct (src/types.go Header): 18
big-endian fields, 104 bytes in total. -/
def readHeaderFields (bs : List Nat) : Option (Header × List Nat) :=
  match readFields headerFieldWidths bs with
  | some ([magic, version, backingFileOffset, backingFileSize, clusterBits, size,
           cryptMethod, l1Size, l1TableOffset, refcountTableOffset,
           refcountTableClusters, nbSnapshots, snapshotsOffset, incompatibleFeatures,
           compatibleFeatures, autoclearFeatures, refcountOrder, headerLength], rest) =>
      some ({ magic := magic, version := version, backingFileOffset := backingFileOffset,
              backingFileSize := backingFileSize, clusterBits := clusterBits, size := size,
              cryptMethod := cryptMethod, l1Size := l1Size, l1TableOffset := l1TableOffset,
              refcountTableOffset := refcountTableOffset,
              refcountTableClusters := refcountTableClusters, nbSnapshots := nbSnapshots,
              snapshotsOffset := snapshotsOffset, incompatibleFeatures := incompatibleFeatures,
              compatibleFeatures := compatibleFeatures, autoclearFeatures := autoclearFeatures,
              refcountOrder := refcountOrder, headerLength := headerLength }, rest)
  | _ => none

/-- binary.Read of HeaderAdditionalFields: one compression-type byte and
seven padding bytes. -/
def readAdditionalFields (bs : List Nat) : Option (HeaderAdditionalFields × List Nat) :=
  if 8 ≤ bs.length then some (⟨beU64 (bs.take 1)⟩, bs.drop 8) else none

/-- The extension loop of readHeader: read a (type, length) metadata pair,
stop at the end-of-extensions marker, reject the three blocking extension
types, otherwise read the data and continue. -/
def readExtensionList (bs : List Nat) : Except HdrErr (List HeaderExtension × List Nat) :=
  if h8 : 8 ≤ bs.length then
    let extType := beU64 (bs.take 4)
    let extLen := beU64 ((bs.drop 4).take 4)
    let bs2 := bs.drop 8
    if extType = 0 then .ok ([], bs2)
    else if extType = BackingFileFormatName ∨ extType = ExternalDataFileName ∨
            extType = FullDiskEncryptionHeader then
      .error .blockingExtension
    else if extLen ≤ bs2.length then
      match readExtensionList (bs2.drop extLen) with
      | .error e => .error e
      | .ok (exts, rest) => .ok (⟨extType, bs2.take extLen⟩ :: exts, rest)
    else .error .ioFailure
  else .error .ioFailure
termination_by bs.length
decreasing_by simp [List.length_drop]; omega

/-- src/header.go readHeader: parse the fixed header, run the validation
checks in source order, parse the additional fields when headerLength
exceeds the fixed struct size (unsafe.Sizeof gives 104), check the
compression type, then scan the extension area. -/
def readHeader (bs : List Nat) : Except HdrErr HeaderAndAdditionalFields :=
  match readHeaderFields bs with
  | none => .error .ioFailure
  | some (hdr, bs1) =>
    if hdr.magic ≠ Magic then .error .badMagic
    else if hdr.version ≠ 3 then .error .badVersion
    else if hdr.backingFileOffset ≠ 0 then .error .backingFile
    else if hdr.cryptMethod ≠ 0 then .error .encryption
    else if hdr.incompatibleFeatures ≠ 0 then .error .incompatible
    else
      match (if 104 < hdr.headerLength then
               match readAdditionalFields bs1 with
               | none => Except.error HdrErr.ioFailure
               | some (af, bs2) => Except.ok (some af, bs2)
             else Except.ok (none, bs1) :
             Except HdrErr (Option HeaderAdditionalFields × List Nat)) with
      | .error e => .error e
      | .ok (af, bs2) =>
        if (match af with
            | some a => a.compressionType != 0
            | none => false : Bool) then .error .compression
        else
          match readExtensionList bs2 with
          | .error e => .error e
          | .ok (exts, _) => .ok ⟨hdr, af, exts⟩

/-- Big-endian serialization of the fixed header fields, inverse to
readHeaderFields on in-range field values. -/
def encodeHeaderFields (h : Header) : List Nat :=
  encodeU32 h.magic ++ encodeU32 h.version ++ encodeU64 h.backingFileOffset ++
  encodeU32 h.backingFileSize ++ encodeU32 h.clusterBits ++ encodeU64 h.size ++
  encodeU32 h.cryptMethod ++ encodeU32 h.l1Size ++ encodeU64 h.l1TableOffset ++
  encodeU64 h.refcountTableOffset ++ encodeU32 h.refcountTableClusters ++
  encodeU32 h.nbSnapshots ++ encodeU64 h.snapshotsOffset ++
  encodeU64 h.incompatibleFeatures ++ encodeU64 h.compatibleFeatures ++
  encodeU64 h.autoclearFeatures ++ encodeU32 h.refcountOrder ++
  encodeU32 h.headerLength

/-- Serialization of the additional fields block: compression type byte and
seven padding bytes. -/
def encodeAdditionalFields (a : HeaderAdditionalFields) : List Nat :=
  a.compressionType % 256 :: List.replicate 7 0

/-- Serialization of one header extension: type, length, data. -/
def encodeExtension (e : HeaderExtension) : List Nat :=
  encodeU32 e.type ++ encodeU32 e.data.length ++ e.data

/-- Serialization of a whole header area: fixed fields, optional additional
fields, extensions, end-of-extensions marker. -/
def encodeHeaderArea (h : Header) (af : Option HeaderAdditionalFields)
    (exts : List HeaderExtension) : List Nat :=
  encodeHeaderFields h ++
  (match af with | some a => encodeAdditionalFields a | none => []) ++
  exts.foldr (fun e acc => encodeExtension e ++ acc) [] ++
  encodeU32 0 ++ encodeU32 0

/-- All fixed header fields fit their wire width. -/
def boundedHeader (h : Header) : Prop :=
  h.magic < 2 ^ 32 ∧ h.version < 2 ^ 32 ∧ h.backingFileOffset < 2 ^ 64 ∧
  h.backingFileSize < 2 ^ 32 ∧ h.clusterBits < 2 ^ 32 ∧ h.size < 2 ^ 64 ∧
  h.cryptMethod < 2 ^ 32 ∧ h.l1Size < 2 ^ 32 ∧ h.l1TableOffset < 2 ^ 64 ∧
  h.refcountTableOffset < 2 ^ 64 ∧ h.refcountTableClusters < 2 ^ 32 ∧
  h.nbSnapshots < 2 ^ 32 ∧ h.snapshotsOffset < 2 ^ 64 ∧
  h.incompatibleFeatures < 2 ^ 64 ∧ h.compatibleFeatures < 2 ^ 64 ∧
  h.autoclearFeatures < 2 ^ 64 ∧ h.refcountOrder < 2 ^ 32 ∧ h.headerLength < 2 ^ 32

/-- A well-formed extension record: a non-marker type fitting 32 bits and a
data length fitting 32 bits. -/
def wfExtension (e : HeaderExtension) : Prop :=
  e.type ≠ 0 ∧ e.type < 2 ^ 32 ∧ e.data.length < 2 ^ 32

/-- The three extension types readHeader rejects. -/
def isBlockingExtensionType (t : Nat) : Bool :=
  t == BackingFileFormatName || t == ExternalDataFileName || t == FullDiskEncryptionHeader

/-- The disjunction of rejection conditions named by the open-validation
claim. -/
def invalidHeaderCond (h : Header) (af : Option HeaderAdditionalFields)
    (exts : List HeaderExtension) : Prop :=
  h.magic ≠ Magic ∨ h.version ≠ 3 ∨ h.backingFileOffset ≠ 0 ∨ h.cryptMethod ≠ 0 ∨
  h.incompatibleFeatures ≠ 0 ∨ (∃ a, af = some a ∧ a.compressionType ≠ 0) ∨
  (∃ e ∈ exts, isBlockingExtensionType e.type = true)

/-- A well-formed header for the open-validation witness: correct magic,
version 3, no backing file, no encryption, no incompatible features,
headerLength equal to the fixed struct size. -/
def hdrOk : Header :=
  { magic := 0x514649FB, version := 3, clusterBits := 16, size := 1024,
    refcountOrder := 4, headerLength := 104 }


/-! ### Theorems settling the claims -/

/-- C1: round-trip fails on the code for a write at a non-cluster-aligned
offset. On a freshly created image, WriteAt stores the bytes 7, 9 at disk
offset 1 reporting full success (count 2, no error), yet ReadAt at the same
offset returns the bytes 9, 0: the cluster writer places an unaligned write
at the start of the newly allocated cluster while the reader applies the
intra-cluster remainder. -/
theorem claim_C1_roundtrip_fails_on_unaligned_write :
    (WriteAt stFresh hdrSmall [7, 9] 1).n = 2 ∧
    (WriteAt stFresh hdrSmall [7, 9] 1).err = .noErr ∧
    ReadAt (WriteAt stFresh hdrSmall [7, 9] 1).s.file hdrSmall (List.replicate 2 0) 1
      = .ok 2 .noErr [9, 0] ∧
    ([9, 0] : List Nat) ≠ [7, 9] :=
  ⟨by decide, by decide, by decide, by decide⟩

/-- C2: the writer returned by the cluster writer is unbounded, and a single
host write issued by WriteAt crosses a host-cluster boundary. With 512-byte
clusters and both guest clusters allocated with refcount 1, WriteAt of 513
bytes at disk offset 1 issues the single host write (offset 2561, length
512), which crosses the host-cluster boundary at 3072 and exceeds the
claimed bound cluster_size - (D mod cluster_size) = 511. -/
theorem claim_C2_single_write_crosses_cluster_boundary :
    (WriteAt stCow hdrSmall (List.replicate 513 7) 1).s.trace
      = [.hostWrite 2561 512, .hostWrite 3073 1] ∧
    crossesClusterBoundary 512 2561 512 = true ∧
    (512 : Int) - Int.tmod 1 512 < 512 :=
  ⟨by decide, by decide, by decide⟩

/-- C3: the refcount engine positions the refcount of cluster c at byte
block_offset + block_index * refcount_width, multiplying the block index by
the field width in bits rather than in bytes. For cluster 1 (disk offset
512, block_offset 2048, block_index 1, refcount_width 16) the code reads
byte 2064 while the byte position named by the claim is 2050. -/
theorem claim_C3_refcount_position_uses_width_as_bytes :
    diskToRefcountOffset fileFresh hdrSmall 512 = 2064 ∧
    specRefcountBytePos 2048 1 16 = 2050 ∧
    ((2064 : Int) ≠ 2050) :=
  ⟨by decide, by decide, by decide⟩

/-- C4: on a write to a cluster with refcount greater than 1, copyCluster
does not copy the old cluster. With the old data cluster at host offset 2560
holding the byte 171 throughout and refcount 2, copyCluster allocates the
new cluster at 3072 but fills it with the 512 bytes read from host offset
512 (the value of alignToClusterBoundary, which computes the remainder
complement instead of aligning down), i.e. the L1 table cluster, not the old
data cluster. -/
theorem claim_C4_cow_copies_wrong_source :
    getRefcount stSnap.file hdrSmall 0 = 2 ∧
    (copyCluster stSnap hdrSmall 0).1 = 3072 ∧
    alignToClusterBoundary hdrSmall 2560 = 512 ∧
    readBytes (copyCluster stSnap hdrSmall 0).2.file 3072 512
      = readBytes stSnap.file 512 512 ∧
    readBytes stSnap.file 2560 512 = List.replicate 512 171 ∧
    readBytes (copyCluster stSnap hdrSmall 0).2.file 3072 512
      ≠ List.replicate 512 171 :=
  ⟨by decide, by decide, by decide, by decide, by decide, by decide⟩

/-- C5 counterexample: an L2 entry that the claim classifies as an
unallocated hole (not compressed, host offset field 0: the word with only
bit 63 set) is not treated as a hole by the cluster reader, which returns a
positioned data stream over host offset 0 instead of zero-filling. -/
theorem claim_C5_counterexample_offset_zero_entry_not_hole :
    specUnallocatedL2 hdrSmall (2 ^ 63) = true ∧
    L2TableEntry.Compressed (2 ^ 63) = false ∧
    l2EntryAt fileHole hdrSmall 0 = 2 ^ 63 ∧
    clusterReader fileHole hdrSmall 0 = .data 0 512 ∧
    isHole (clusterReader fileHole hdrSmall 0) = false :=
  ⟨by decide, by decide, by decide, by decide, by decide⟩

/-- C6 counterexample: for a write allocating a new cluster, the metadata
operations recorded by the cluster writer occur in the order allocate, set
refcount, update L2 — not the claimed order allocate, update L2, set
refcount. -/
theorem claim_C6_counterexample_refcount_before_l2 :
    metaTags (clusterWriter stFresh hdrSmall 1).2.trace = [.alloc, .setRef, .updL2] ∧
    ([MetaTag.alloc, .setRef, .updL2] ≠ [MetaTag.alloc, .updL2, .setRef]) :=
  ⟨by decide, by decide⟩

/-- C7 counterexample: a WriteAt whose buffer extends past the disk size
fails with io.ErrUnexpectedEOF having transferred nothing, but returns the
count 1 (the full buffer length), not the claimed count 0. -/
theorem claim_C7_counterexample_count_is_buffer_length :
    (WriteAt stFresh hdrSmall [7] 1024).n = 1 ∧
    (WriteAt stFresh hdrSmall [7] 1024).err = .unexpectedEof ∧
    ((1 : Int) ≠ 0) :=
  ⟨by decide, by decide, by decide⟩

/-- C8 counterexample: when the disk offset itself exceeds the disk size,
the clipped length int(size - diskOffset) is negative and the slice
expression p[:n] in Image.ReadAt panics instead of returning an empty short
read. -/
theorem claim_C8_counterexample_panics_past_size :
    ReadAt fileFresh hdrSmall [7] 1025 = .panicked := by decide

/-- C10: ReadAt and WriteAt with an empty buffer return count 0 and no
error for every disk offset, including offsets at or beyond the image size,
without touching the file or the tables: the state (file and trace) is
returned unchanged. -/
theorem claim_C10_empty_buffer_is_noop (f : File) (hdr : Header) (s : St) (D : Int) :
    ReadAt f hdr [] D = .ok 0 .noErr [] ∧ WriteAt s hdr [] D = ⟨0, .noErr, s⟩ :=
  ⟨rfl, rfl⟩


/-- The cluster reader expressed through the standalone L2 lookup l2EntryAt:
both definitions perform the same translation, so this is definitional. -/
theorem clusterReader_eq (f : File) (hdr : Header) (D : Int) :
    clusterReader f hdr D =
      (if l2EntryAt f hdr D = 0 ∨
          (¬ (L2TableEntry.Compressed (l2EntryAt f hdr D) = true) ∧
            l2EntryAt f hdr D &&& 1 = 1) then
        ClusterStream.hole
          (((2 ^ hdr.clusterBits : Nat) : Int) - D.tmod ((2 ^ hdr.clusterBits : Nat) : Int))
      else if L2TableEntry.Compressed (l2EntryAt f hdr D) = true then
        ClusterStream.compressed (L2TableEntry.Offset hdr (l2EntryAt f hdr D))
          (L2TableEntry.CompressedSize hdr (l2EntryAt f hdr D))
          (D.tmod ((2 ^ hdr.clusterBits : Nat) : Int))
          (((2 ^ hdr.clusterBits : Nat) : Int) - D.tmod ((2 ^ hdr.clusterBits : Nat) : Int))
      else
        ClusterStream.data
          (L2TableEntry.Offset hdr (l2EntryAt f hdr D) +
            D.tmod ((2 ^ hdr.clusterBits : Nat) : Int))
          (((2 ^ hdr.clusterBits : Nat) : Int) - D.tmod ((2 ^ hdr.clusterBits : Nat) : Int))) :=
  rfl

/-- C5 amended: the cluster reader takes the zero-filled hole branch exactly
when the L2 entry word is 0 or the entry is not compressed and its least
significant (reserved) bit is 1 — not when the host offset field is 0 as the
claim states; every other entry is read from its host offset or handed to
the decompressor. -/
theorem claim_C5_hole_iff (f : File) (hdr : Header) (D : Int) :
    isHole (clusterReader f hdr D) = true ↔
      (l2EntryAt f hdr D = 0 ∨
        (¬ (L2TableEntry.Compressed (l2EntryAt f hdr D) = true) ∧
          l2EntryAt f hdr D &&& 1 = 1)) := by
  rw [clusterReader_eq]
  by_cases hc : (l2EntryAt f hdr D = 0 ∨
      (¬ (L2TableEntry.Compressed (l2EntryAt f hdr D) = true) ∧
        l2EntryAt f hdr D &&& 1 = 1))
  · rw [if_pos hc]
    exact iff_of_true rfl hc
  · rw [if_neg hc]
    refine iff_of_false ?_ hc
    split <;> simp [isHole]

/-- C6 amended: whenever the cluster writer allocates (refcount 0) or
performs copy-on-write (refcount greater than 1), the metadata operations
happen in the order allocate, then set refcount, then update the L2 entry
(the claim states allocate, update L2, set refcount). -/
theorem claim_C6_order (s : St) (hdr : Header) (D : Int)
    (h : getRefcount s.file hdr D ≠ 1) :
    metaTags ((clusterWriter s hdr D).2.trace.drop s.trace.length)
      = [.alloc, .setRef, .updL2] := by
  by_cases h0 : getRefcount s.file hdr D = 0
  · simp [clusterWriter, h0, allocateCluster, setRefcount, writeBits, stWrite,
      storeImageToDiskOffset, writeTable, copyCluster, metaTags, Ev.metaTag,
      List.append_assoc, List.drop_left]
  · simp [clusterWriter, h0, h, allocateCluster, setRefcount, writeBits, stWrite,
      storeImageToDiskOffset, writeTable, copyCluster, metaTags, Ev.metaTag,
      List.append_assoc, List.drop_left]

/-- C7 amended: for every non-empty buffer extending past the disk size,
WriteAt fails with io.ErrUnexpectedEOF before transferring anything,
leaving the state unchanged, and returns as count the full buffer length
(the named return n is initialized to len(p) and is not reset), not the
number of bytes transferred. -/
theorem claim_C7_out_of_range (s : St) (hdr : Header) (p : List Nat) (D : Int)
    (hp : p ≠ []) (hover : (hdr.size : Int) < D + p.length) :
    WriteAt s hdr p D = ⟨(p.length : Int), .unexpectedEof, s⟩ := by
  have hn : ¬ ((p.length : Int) = 0) := by simp [List.length_eq_zero, hp]
  unfold WriteAt
  rw [if_neg hn, if_pos hover]

/-- The ReadAt loop either propagates an inner failure or returns the
clipped count n and error value it was entered with. -/
theorem readAtLoop_shape (f : File) (hdr : Header) :
    ∀ (fuel : Nat) (D n remaining : Int) (acc : List Nat) (err : IOErr),
      (∃ c, readAtLoop f hdr fuel D n remaining acc err = .failed c) ∨
      (∃ out, readAtLoop f hdr fuel D n remaining acc err = .ok n err out) := by
  intro fuel
  induction fuel with
  | zero =>
    intro D n r acc err
    by_cases hr : r ≤ 0
    · exact Or.inr ⟨acc, by simp [readAtLoop, hr]⟩
    · exact Or.inl ⟨n - r, by simp [readAtLoop, hr]⟩
  | succ fuel ih =>
    intro D n r acc err
    by_cases hr : r ≤ 0
    · exact Or.inr ⟨acc, by simp [readAtLoop, hr]⟩
    · simp only [readAtLoop, if_neg hr]
      cases hsr : streamRead f (clusterReader f hdr D)
          (min ((2 ^ hdr.clusterBits : Nat) : Int) r) with
      | none => exact Or.inl ⟨n - r, rfl⟩
      | some out => exact ih (D + out.length) n (r - out.length) (acc ++ out) err

/-- C8 amended: for a non-empty buffer extending past the disk size with
disk offset at most the size, ReadAt does not panic: it returns the short
read of size - diskOffset bytes with io.EOF (or propagates an inner
failure). When the disk offset exceeds the size the clip is negative and
the slice expression panics, refuting the unrestricted claim. -/
theorem claim_C8_clip (f : File) (hdr : Header) (p : List Nat) (D : Int)
    (h0 : 0 ≤ D) (h1 : D ≤ (hdr.size : Int)) (h2 : (hdr.size : Int) < D + p.length) :
    ReadAt f hdr p D ≠ .panicked ∧
      ((∃ c, ReadAt f hdr p D = .failed c) ∨
        (∃ out, ReadAt f hdr p D = .ok ((hdr.size : Int) - D) .eof out)) := by
  have hn : ¬ ((p.length : Int) = 0) := by omega
  have hnneg : ¬ ((hdr.size : Int) - D < 0) := by omega
  unfold ReadAt
  rw [if_neg hn, if_pos h2, if_neg hnneg]
  have hsh := readAtLoop_shape f hdr ((hdr.size : Int) - D).toNat D
    ((hdr.size : Int) - D) ((hdr.size : Int) - D) [] .eof
  constructor
  · rcases hsh with ⟨c, hc⟩ | ⟨out, hout⟩
    · rw [hc]; simp
    · rw [hout]; simp
  · exact hsh

/-- Big-endian round trip for 32-bit fields. -/
theorem beU64_encodeU32 (v : Nat) (h : v < 2 ^ 32) : beU64 (encodeU32 v) = v := by
  simp [beU64, encodeU32]
  omega

/-- Big-endian round trip for 64-bit fields. -/
theorem beU64_encodeU64 (v : Nat) (h : v < 2 ^ 64) : beU64 (encodeU64 v) = v := by
  simp [beU64, encodeU64]
  omega

/-- readBE inverts encodeU32 at the front of a stream. -/
theorem readBE_encodeU32 (v : Nat) (tl : List Nat) (h : v < 2 ^ 32) :
    readBE 4 (encodeU32 v ++ tl) = some (v, tl) := by
  have h4 : 4 ≤ (encodeU32 v ++ tl).length := by simp [encodeU32]
  rw [readBE, if_pos h4, show (4 : Nat) = (encodeU32 v).length from rfl,
    List.take_left, List.drop_left, beU64_encodeU32 v h]

/-- readBE inverts encodeU64 at the front of a stream. -/
theorem readBE_encodeU64 (v : Nat) (tl : List Nat) (h : v < 2 ^ 64) :
    readBE 8 (encodeU64 v ++ tl) = some (v, tl) := by
  have h8 : 8 ≤ (encodeU64 v ++ tl).length := by simp [encodeU64]
  rw [readBE, if_pos h8, show (8 : Nat) = (encodeU64 v).length from rfl,
    List.take_left, List.drop_left, beU64_encodeU64 v h]

/-- Parsing inverts serialization for the fixed header fields. -/
theorem readHeaderFields_encode (h : Header) (tl : List Nat) (hb : boundedHeader h) :
    readHeaderFields (encodeHeaderFields h ++ tl) = some (h, tl) := by
  obtain ⟨b1, b2, b3, b4, b5, b6, b7, b8, b9, b10, b11, b12, b13, b14, b15, b16, b17, b18⟩ := hb
  rw [readHeaderFields]
  simp only [headerFieldWidths, encodeHeaderFields, List.append_assoc]
  simp only [readFields, readBE_encodeU32, readBE_encodeU64, b1, b2, b3, b4, b5, b6, b7,
    b8, b9, b10, b11, b12, b13, b14, b15, b16, b17, b18]

/-- Parsing inverts serialization for the additional fields block. -/
theorem readAdditionalFields_encode (a : HeaderAdditionalFields) (tl : List Nat)
    (hlt : a.compressionType < 256) :
    readAdditionalFields (encodeAdditionalFields a ++ tl) = some (a, tl) := by
  have h8 : 8 ≤ (encodeAdditionalFields a ++ tl).length := by
    simp [encodeAdditionalFields]
  rw [readAdditionalFields, if_pos h8]
  simp [encodeAdditionalFields, beU64, Nat.mod_eq_of_lt hlt]

/-- The extension scan of an encoded extension area: it rejects the area
exactly when a blocking extension type is present, and otherwise returns
all extensions with their data preserved. -/
theorem readExtensionList_encode (exts : List HeaderExtension) (tl : List Nat)
    (hw : ∀ e ∈ exts, wfExtension e) :
    readExtensionList
        (exts.foldr (fun e acc => encodeExtension e ++ acc) [] ++
          (encodeU32 0 ++ (encodeU32 0 ++ tl))) =
      (if exts.any (fun e => isBlockingExtensionType e.type) then
        Except.error HdrErr.blockingExtension
      else Except.ok (exts, tl)) := by
  induction exts with
  | nil =>
    rw [readExtensionList]
    simp [encodeU32, beU64]
  | cons e rest ih =>
    obtain ⟨ht0, ht32, hd32⟩ := hw e (List.mem_cons_self e rest)
    have hwr : ∀ x ∈ rest, wfExtension x := fun x hx => hw x (List.mem_cons_of_mem e hx)
    have hbytes :
        (e :: rest).foldr (fun x acc => encodeExtension x ++ acc) [] ++
            (encodeU32 0 ++ (encodeU32 0 ++ tl)) =
          encodeU32 e.type ++ (encodeU32 e.data.length ++ (e.data ++
            (rest.foldr (fun x acc => encodeExtension x ++ acc) [] ++
              (encodeU32 0 ++ (encodeU32 0 ++ tl))))) := by
      simp [encodeExtension, List.append_assoc]
    rw [hbytes, readExtensionList]
    have h8 : 8 ≤ (encodeU32 e.type ++ (encodeU32 e.data.length ++ (e.data ++
        (rest.foldr (fun x acc => encodeExtension x ++ acc) [] ++
          (encodeU32 0 ++ (encodeU32 0 ++ tl)))))).length := by
      simp [encodeU32]
    rw [dif_pos h8]
    have htake4 : (encodeU32 e.type ++ (encodeU32 e.data.length ++ (e.data ++
        (rest.foldr (fun x acc => encodeExtension x ++ acc) [] ++
          (encodeU32 0 ++ (encodeU32 0 ++ tl)))))).take 4 = encodeU32 e.type := by
      rw [show (4 : Nat) = (encodeU32 e.type).length from rfl, List.take_left]
    have hdrop4 : (encodeU32 e.type ++ (encodeU32 e.data.length ++ (e.data ++
        (rest.foldr (fun x acc => encodeExtension x ++ acc) [] ++
          (encodeU32 0 ++ (encodeU32 0 ++ tl)))))).drop 4 =
        encodeU32 e.data.length ++ (e.data ++
          (rest.foldr (fun x acc => encodeExtension x ++ acc) [] ++
            (encodeU32 0 ++ (encodeU32 0 ++ tl)))) := by
      rw [show (4 : Nat) = (encodeU32 e.type).length from rfl, List.drop_left]
    have hdroplen : ∀ bs : List Nat, List.drop e.data.length (e.data ++ bs) = bs := fun bs =>
      List.drop_left e.data bs
    rw [htake4, beU64_encodeU32 _ ht32, hdrop4,
      show (4 : Nat) = (encodeU32 e.data.length).length from rfl, List.take_left,
      beU64_encodeU32 _ hd32, show (8 : Nat) = 4 + 4 from rfl, ← List.drop_drop, hdrop4,
      show (4 : Nat) = (encodeU32 e.data.length).length from rfl, List.drop_left]
    rw [if_neg ht0]
    by_cases hblk : (e.type = BackingFileFormatName ∨ e.type = ExternalDataFileName ∨
        e.type = FullDiskEncryptionHeader)
    · rw [if_pos hblk]
      have hbl : isBlockingExtensionType e.type = true := by
        rcases hblk with h | h | h <;> simp [isBlockingExtensionType, h]
      simp [List.any_cons, hbl]
    · rw [if_neg hblk]
      have hle : e.data.length ≤ (e.data ++
          (rest.foldr (fun x acc => encodeExtension x ++ acc) [] ++
            (encodeU32 0 ++ (encodeU32 0 ++ tl)))).length := by
        simp
      rw [if_pos hle, hdroplen, ih hwr,
        show List.take e.data.length (e.data ++
          (rest.foldr (fun x acc => encodeExtension x ++ acc) [] ++
            (encodeU32 0 ++ (encodeU32 0 ++ tl)))) = e.data from List.take_left e.data _]
      have hnbl : isBlockingExtensionType e.type = false := by
        simp only [isBlockingExtensionType, Bool.or_eq_false_iff, beq_eq_false_iff_ne]
        push_neg at hblk
        exact ⟨⟨hblk.1, hblk.2.1⟩, hblk.2.2⟩
      by_cases hra : rest.any (fun x => isBlockingExtensionType x.type) = true
      · rw [if_pos hra]
        simp [List.any_cons, hra]
      · rw [if_neg hra]
        simp [List.any_cons, hnbl, hra]

/-- Closed form of readHeader on an encoded header area: the checks run in
source order and a header passing all of them is accepted. -/
theorem readHeader_encode (h : Header) (af : Option HeaderAdditionalFields)
    (exts : List HeaderExtension) (rest : List Nat)
    (hb : boundedHeader h)
    (haf : (104 < h.headerLength) ↔ af.isSome = true)
    (hct : ∀ a ∈ af, a.compressionType < 256)
    (hw : ∀ e ∈ exts, wfExtension e) :
    readHeader (encodeHeaderArea h af exts ++ rest) =
      (if h.magic ≠ Magic then .error .badMagic
       else if h.version ≠ 3 then .error .badVersion
       else if h.backingFileOffset ≠ 0 then .error .backingFile
       else if h.cryptMethod ≠ 0 then .error .encryption
       else if h.incompatibleFeatures ≠ 0 then .error .incompatible
       else if (match af with
                | some a => a.compressionType != 0
                | none => false : Bool) then .error .compression
       else if exts.any (fun e => isBlockingExtensionType e.type) then
         .error .blockingExtension
       else .ok ⟨h, af, exts⟩) := by
  cases af with
  | none =>
    have h104 : ¬ (104 < h.headerLength) := by simp [haf]
    simp only [encodeHeaderArea, List.append_assoc, List.nil_append]
    unfold readHeader
    simp only [readHeaderFields_encode h _ hb]
    by_cases h1 : h.magic = Magic
    case neg => simp [h1]
    by_cases h2 : h.version = 3
    case neg => simp [h1, h2]
    by_cases h3 : h.backingFileOffset = 0
    case neg => simp [h1, h2, h3]
    by_cases h4 : h.cryptMethod = 0
    case neg => simp [h1, h2, h3, h4]
    by_cases h5 : h.incompatibleFeatures = 0
    case neg => simp [h1, h2, h3, h4, h5]
    simp only [h1, h2, h3, h4, h5, ne_eq, not_true_eq_false, if_false, ite_false,
      if_neg h104]
    rw [readExtensionList_encode exts rest hw]
    by_cases hany : exts.any (fun e => isBlockingExtensionType e.type) = true
    · simp [hany]
    · simp [hany]
  | some a =>
    have h104 : 104 < h.headerLength := by simp [haf]
    have hca : a.compressionType < 256 := hct a rfl
    simp only [encodeHeaderArea, List.append_assoc]
    unfold readHeader
    simp only [readHeaderFields_encode h _ hb]
    by_cases h1 : h.magic = Magic
    case neg => simp [h1]
    by_cases h2 : h.version = 3
    case neg => simp [h1, h2]
    by_cases h3 : h.backingFileOffset = 0
    case neg => simp [h1, h2, h3]
    by_cases h4 : h.cryptMethod = 0
    case neg => simp [h1, h2, h3, h4]
    by_cases h5 : h.incompatibleFeatures = 0
    case neg => simp [h1, h2, h3, h4, h5]
    simp only [h1, h2, h3, h4, h5, ne_eq, not_true_eq_false, if_false, ite_false,
      if_pos h104, readAdditionalFields_encode a _ hca]
    by_cases hc : a.compressionType = 0
    · simp only [hc]
      rw [readExtensionList_encode exts rest hw]
      by_cases hany : exts.any (fun e => isBlockingExtensionType e.type) = true
      · simp [hany]
      · simp [hany]
    · simp [hc]

/-- C9: opening an image rejects it with an invalid-image error (as opposed
to an I/O failure) exactly when the header has a bad magic, version,
backing-file offset, crypt method or incompatible features, or (when the
additional fields are present) a non-DEFLATE compression type, or a
blocking (backing-file-format-name, external-data-file-name or
full-disk-encryption-header) extension is present; a header failing none of
these checks is accepted with all non-blocking extensions preserved. -/
theorem claim_C9_validation (h : Header) (af : Option HeaderAdditionalFields)
    (exts : List HeaderExtension) (rest : List Nat)
    (hb : boundedHeader h)
    (haf : (104 < h.headerLength) ↔ af.isSome = true)
    (hct : ∀ a ∈ af, a.compressionType < 256)
    (hw : ∀ e ∈ exts, wfExtension e) :
    ((∃ e, readHeader (encodeHeaderArea h af exts ++ rest) = .error e ∧
        isInvalidImage e = true) ↔ invalidHeaderCond h af exts) ∧
      (¬ invalidHeaderCond h af exts →
        readHeader (encodeHeaderArea h af exts ++ rest) = .ok ⟨h, af, exts⟩) := by
  rw [readHeader_encode h af exts rest hb haf hct hw]
  by_cases h1 : h.magic = Magic
  case neg => simp [invalidHeaderCond, isInvalidImage, h1]
  by_cases h2 : h.version = 3
  case neg => simp [invalidHeaderCond, isInvalidImage, h1, h2]
  by_cases h3 : h.backingFileOffset = 0
  case neg => simp [invalidHeaderCond, isInvalidImage, h1, h2, h3]
  by_cases h4 : h.cryptMethod = 0
  case neg => simp [invalidHeaderCond, isInvalidImage, h1, h2, h3, h4]
  by_cases h5 : h.incompatibleFeatures = 0
  case neg => simp [invalidHeaderCond, isInvalidImage, h1, h2, h3, h4, h5]
  cases af with
  | none =>
    by_cases hany : exts.any (fun e => isBlockingExtensionType e.type) = true
    · simp [invalidHeaderCond, isInvalidImage, h1, h2, h3, h4, h5, hany]
      exact List.any_eq_true.mp hany
    · simp only [List.any_eq_true] at hany
      simp [invalidHeaderCond, isInvalidImage, h1, h2, h3, h4, h5, hany]
  | some a =>
    by_cases hc : a.compressionType = 0
    · by_cases hany : exts.any (fun e => isBlockingExtensionType e.type) = true
      · simp [invalidHeaderCond, isInvalidImage, h1, h2, h3, h4, h5, hc, hany]
        exact List.any_eq_true.mp hany
      · simp only [List.any_eq_true] at hany
        simp [invalidHeaderCond, isInvalidImage, h1, h2, h3, h4, h5, hc, hany]
    · simp [invalidHeaderCond, isInvalidImage, h1, h2, h3, h4, h5, hc]

/-- Witness for C6 at a concrete image whose target cluster has refcount 0. -/
theorem claim_C6_witness :
    getRefcount stFresh.file hdrSmall 1 ≠ 1 ∧
      metaTags ((clusterWriter stFresh hdrSmall 1).2.trace.drop stFresh.trace.length)
        = [.alloc, .setRef, .updL2] :=
  ⟨by decide, claim_C6_order stFresh hdrSmall 1 (by decide)⟩

/-- Witness for C7 at a concrete out-of-range write. -/
theorem claim_C7_witness :
    WriteAt stFresh hdrSmall [7] 1024 = ⟨(([7] : List Nat).length : Int), .unexpectedEof, stFresh⟩ :=
  claim_C7_out_of_range stFresh hdrSmall [7] 1024 (by decide) (by decide)

/-- Witness for C8 at a concrete read straddling end-of-disk. -/
theorem claim_C8_witness :
    ReadAt fileFresh hdrSmall [5, 5, 5, 5, 5] 1022 ≠ .panicked ∧
      ((∃ c, ReadAt fileFresh hdrSmall [5, 5, 5, 5, 5] 1022 = .failed c) ∨
        (∃ out, ReadAt fileFresh hdrSmall [5, 5, 5, 5, 5] 1022
          = .ok ((hdrSmall.size : Int) - 1022) .eof out)) :=
  claim_C8_clip fileFresh hdrSmall [5, 5, 5, 5, 5] 1022 (by decide) (by decide) (by decide)

/-- Witness for C9 at a concrete valid header carrying one non-blocking
extension. -/
theorem claim_C9_witness :
    ((∃ e, readHeader (encodeHeaderArea hdrOk none [⟨FeatureNameTable, [1, 2, 3]⟩] ++ []) = .error e ∧
        isInvalidImage e = true) ↔ invalidHeaderCond hdrOk none [⟨FeatureNameTable, [1, 2, 3]⟩]) ∧
      (¬ invalidHeaderCond hdrOk none [⟨FeatureNameTable, [1, 2, 3]⟩] →
        readHeader (encodeHeaderArea hdrOk none [⟨FeatureNameTable, [1, 2, 3]⟩] ++ []) =
          .ok ⟨hdrOk, none, [⟨FeatureNameTable, [1, 2, 3]⟩]⟩) :=
  claim_C9_validation hdrOk none [⟨FeatureNameTable, [1, 2, 3]⟩] []
    (by unfold boundedHeader; decide) (by decide) (by simp)
    (by intro e he; rw [List.mem_singleton] at he; subst he; unfold wfExtension FeatureNameTable; decide)

end Qcow2
